import Mathlib

/-!
# Worker runtime of the job queue (`worker.go`)

A shallow embedding of `worker.go`: option validation and registration, the
middleware stacks built by `Worker.start`, the ack flush, one pass through the
default branch of the worker loop, the bulk-dequeue adapter and the built-in
middleware `idleWait`, `catchPanic` and `retry`.

Conventions of the embedding.

* Go functions with effects are state-passing functions.  Everything a worker
  goroutine can touch is a `World σ`: the state `σ` behind the queue and the
  user's closures, plus the two variables captured by the closures of
  `Worker.start` and `getDequeueFunc` (`ackJobs` and `jobs`).
* `*Job` and `*DequeueOptions` are pointers: a callee may write through them, so
  every function that receives one returns the value it leaves behind.
* `int64` and `time.Duration` are `Int` with explicit wrap-around (`wrap64`).
  `time.Time` is a nanosecond count on an unbounded time line.
* `time.Now()` is read from an explicit argument.
-/

namespace Work

/-! ## Machine arithmetic and time -/

/-- Two's-complement wrap-around of a mathematical integer into `int64`. -/
def wrap64 (x : Int) : Int :=
  (x + 9223372036854775808) % 18446744073709551616 - 9223372036854775808

/-- Largest `int64`. -/
def maxInt64 : Int := 9223372036854775807

/-- Smallest `int64`. -/
def minInt64 : Int := -9223372036854775808

/-- Go's `time.Second`, as a `time.Duration` (nanoseconds). -/
def Second : Int := 1000000000

/-- Go's `Time.Add` on a nanosecond time line. -/
def timeAdd (t : Int) (d : Int) : Int := t + d

/-! ## Errors -/

/-- Go `error` values. The six sentinels declared in `worker.go` are compared by
identity; every other error value is represented by its message. -/
inductive Error where
  | ErrMaxExecutionTime
  | ErrNumGoroutines
  | ErrIdleWait
  | ErrQueueNotFound
  | ErrUnrecoverable
  | ErrUnsupported
  | other (msg : String)
  deriving DecidableEq, Repr

set_option linter.dupNamespace false in
/-- Go's `err.Error()`. -/
def Error.Error : Error → String
  | .ErrMaxExecutionTime => "work: max execution time should be > 0"
  | .ErrNumGoroutines => "work: number of goroutines should be > 0"
  | .ErrIdleWait => "work: idle wait should be > 0"
  | .ErrQueueNotFound => "work: queue is not found"
  | .ErrUnrecoverable => "work: permanent error"
  | .ErrUnsupported => "work: unsupported"
  | .other msg => msg

/-- Go's `errors.New`. A fresh error value is never one of the sentinels. -/
def errorsNew (msg : String) : Error := .other msg

/-! ## Data model -/

/-- Modelled from the spec: the `Job` struct is declared outside `worker.go`.
Fields as listed in the data model; `Retries` is an `int64`, as its product with
`DequeueOptions.InvisibleSec` in `retry` requires. -/
structure Job where
  ID : String
  Payload : List Nat
  EnqueuedAt : Int
  UpdatedAt : Int
  CreatedAt : Int
  Retries : Int
  LastError : String
  deriving DecidableEq, Repr

/-- Modelled from the spec: `DequeueOptions` is declared outside `worker.go`; its
fields are those set in `Worker.start`. -/
structure DequeueOptions where
  Namespace : String
  QueueID : String
  At : Int
  InvisibleSec : Int
  deriving DecidableEq, Repr

/-- Modelled from the spec: `EnqueueOptions`, with the fields set in `retry`. -/
structure EnqueueOptions where
  Namespace : String
  QueueID : String
  deriving DecidableEq, Repr

/-- Modelled from the spec: `AckOptions`, with the fields set in the flush
closure. -/
structure AckOptions where
  Namespace : String
  QueueID : String
  deriving DecidableEq, Repr

/-- State of one worker goroutine: the outside world and the variables captured
by the closures of `Worker.start` (`ackJobs`) and `getDequeueFunc` (`jobs`). -/
structure World (σ : Type) where
  ext : σ
  jobs : List Job
  ackJobs : List Job
  deriving DecidableEq, Repr

/-- How a call of a `HandleFunc` ends: it returns an `error` (possibly nil) or
panics. For a panic, `v` is what `recover()` yields: `some s` for a non-nil value
whose `fmt.Sprint` text is `s`, `none` for a nil value, as after `panic(nil)` or
`panic(err)` with a nil `err` before Go 1.21 (from Go 1.21 on the run time
replaces a nil panic value by a non-nil `*runtime.PanicNilError`). -/
inductive HandleResult where
  | ret (err : Option Error)
  | panicked (v : Option String)
  deriving DecidableEq, Repr

/-- What a `HandleFunc` call leaves behind. -/
structure HandleOut (σ : Type) where
  result : HandleResult
  job : Job
  opt : DequeueOptions
  world : World σ
  deriving DecidableEq, Repr

/-- How a call of a `DequeueFunc` ends: with a job and a nil error, with a
non-nil error (the job is then ignored by every caller), or with a run-time
panic. -/
inductive DequeueResult where
  | ret (job : Job)
  | fail (err : Error)
  | panicked
  deriving DecidableEq, Repr

/-- What a `DequeueFunc` call leaves behind. -/
structure DequeueOut (σ : Type) where
  result : DequeueResult
  opt : DequeueOptions
  world : World σ
  deriving DecidableEq, Repr

/-- Go's `type DequeueFunc func(*DequeueOptions) (*Job, error)`. -/
abbrev DequeueFunc (σ : Type) := DequeueOptions → World σ → DequeueOut σ

/-- Go's `type DequeueMiddleware func(DequeueFunc) DequeueFunc`. -/
abbrev DequeueMiddleware (σ : Type) := DequeueFunc σ → DequeueFunc σ

/-- Go's `type HandleFunc func(*Job, *DequeueOptions) error`. -/
abbrev HandleFunc (σ : Type) := Job → DequeueOptions → World σ → HandleOut σ

/-- Go's `type HandleMiddleware func(HandleFunc) HandleFunc`. -/
abbrev HandleMiddleware (σ : Type) := HandleFunc σ → HandleFunc σ

/-- Modelled from the spec: the optional capability `bulkDequeuer`
(`BulkDequeue`, `BulkAck`), declared outside `worker.go`. The methods act on
the outside state only. -/
structure bulkDequeuer (σ : Type) where
  BulkDequeue : Int → DequeueOptions → σ → (List Job × Option Error) × σ
  BulkAck : List Job → AckOptions → σ → Option Error × σ

/-- Modelled from the spec: the `Queue` interface (`Enqueue`, `Dequeue`, `Ack`),
declared outside `worker.go`. `bulk` is the outcome of the type assertion
`queue.(bulkDequeuer)`. The methods act on the outside state only; `Dequeue`
receives a pointer to the options and returns what it leaves there. -/
structure Queue (σ : Type) where
  Enqueue : Job → EnqueueOptions → σ → Option Error × σ
  Dequeue : DequeueOptions → σ → DequeueResult × DequeueOptions × σ
  Ack : Job → AckOptions → σ → Option Error × σ
  bulk : Option (bulkDequeuer σ)

/-- Go's `JobOptions`. -/
structure JobOptions (σ : Type) where
  MaxExecutionTime : Int
  IdleWait : Int
  NumGoroutines : Int
  DequeueMiddleware : List (DequeueMiddleware σ)
  HandleMiddleware : List (HandleMiddleware σ)

/-- Go's `handler`. -/
structure handler (σ : Type) where
  QueueID : String
  HandleFunc : HandleFunc σ
  JobOptions : JobOptions σ

/-- Go's `Worker`, without the stop channel and the wait group. The Go map
`handlerMap` is a partial function on queue IDs. -/
structure Worker (σ : Type) where
  namespace_ : String
  queue : Queue σ
  handlerMap : String → Option (handler σ)

/-! ## Options and registration -/

/-- Go's `JobOptions.AddDequeueMiddleware`. -/
def JobOptions.AddDequeueMiddleware {σ : Type} (opt : JobOptions σ)
    (mw : Work.DequeueMiddleware σ) : JobOptions σ :=
  { opt with DequeueMiddleware := opt.DequeueMiddleware ++ [mw] }

/-- Go's `JobOptions.AddHandleMiddleware`. -/
def JobOptions.AddHandleMiddleware {σ : Type} (opt : JobOptions σ)
    (mw : Work.HandleMiddleware σ) : JobOptions σ :=
  { opt with HandleMiddleware := opt.HandleMiddleware ++ [mw] }

/-- Go's `JobOptions.Validate`; `none` is a nil error. -/
def JobOptions.Validate {σ : Type} (opt : JobOptions σ) : Option Error :=
  if opt.MaxExecutionTime ≤ 0 then some .ErrMaxExecutionTime
  else if opt.IdleWait ≤ 0 then some .ErrIdleWait
  else if opt.NumGoroutines ≤ 0 then some .ErrNumGoroutines
  else none

/-- Go's `Worker.Register`: the returned error and the worker it leaves. -/
def Worker.Register {σ : Type} (w : Worker σ) (queueID : String) (h : HandleFunc σ)
    (opt : JobOptions σ) : Option Error × Worker σ :=
  match opt.Validate with
  | some err => (some err, w)
  | none =>
    let entry : handler σ := { QueueID := queueID, HandleFunc := h, JobOptions := opt }
    (none, { w with handlerMap := fun k => if k = queueID then some entry else w.handlerMap k })

/-- Go's `Worker.Start`, as the handlers whose loops it launches for a queue ID:
`NumGoroutines` loops for the handler registered there, none when nothing is
registered. The goroutines themselves are not modelled. -/
def Worker.Start {σ : Type} (w : Worker σ) (queueID : String) : List (handler σ) :=
  match w.handlerMap queueID with
  | none => []
  | some h => List.replicate h.JobOptions.NumGoroutines.toNat h

/-! ## Built-in middleware -/

/-- Go's `idleWait`. `ErrEmptyQueue` is declared outside `worker.go` and is a
parameter; `pause d` is the effect of the `select` on `time.After(d)` and the
stop channel. -/
def idleWait {σ : Type} (ErrEmptyQueue : Error) (pause : Int → World σ → World σ)
    (d : Int) : DequeueMiddleware σ :=
  fun f opt w =>
    let out := f opt w
    match out.result with
    | .fail err =>
      if err = ErrEmptyQueue then { out with world := pause d out.world } else out
    | .ret _ => out
    | .panicked => out

/-- Go's `catchPanic`. The deferred function recovers every panic of the inner
handler; it sets the named result `err` to `errors.New(fmt.Sprint(r))` only under
the guard `r != nil`, so a panic recovered with a nil value leaves `err` nil. -/
def catchPanic {σ : Type} (f : HandleFunc σ) : HandleFunc σ :=
  fun job opt w =>
    let out := f job opt w
    match out.result with
    | .panicked (some v) => { out with result := .ret (some (errorsNew v)) }
    | .panicked none => { out with result := .ret none }
    | .ret _ => out

/-- The four assignments `retry` makes to the job before re-enqueueing it:
`Retries++`, `LastError`, `UpdatedAt` and
`EnqueuedAt = now.Add(time.Duration(job.Retries*opt.InvisibleSec) * time.Second)`,
in `int64` arithmetic. -/
def retryUpdate (now : Int) (err : Error) (job : Job) (opt : DequeueOptions) : Job :=
  { job with
    Retries := wrap64 (job.Retries + 1)
    LastError := err.Error
    UpdatedAt := now
    EnqueuedAt :=
      timeAdd now (wrap64 (wrap64 (wrap64 (job.Retries + 1) * opt.InvisibleSec) * Second)) }

/-- Go's `retry`; `now` is the value read from `time.Now()`. A panic of the
inner handler passes through. The result of `queue.Enqueue` is dropped. -/
def retry {σ : Type} (now : Int) (queue : Queue σ) : HandleMiddleware σ :=
  fun f job opt w =>
    let out := f job opt w
    match out.result with
    | .panicked _ => out
    | .ret none => out
    | .ret (some err) =>
      if err ≠ Error.ErrUnrecoverable then
        let job1 := retryUpdate now err out.job out.opt
        let r := queue.Enqueue job1
          { Namespace := out.opt.Namespace, QueueID := out.opt.QueueID } out.world.ext
        { result := .ret (some err), job := job1, opt := out.opt,
          world := { out.world with ext := r.2 } }
      else { out with result := .ret none }

/-! ## The bulk-dequeue adapter -/

/-- Lines `job := jobs[0]; jobs = jobs[1:]; return job, nil` of the closure in
`getDequeueFunc`. Indexing an empty slice is a run-time panic. -/
def serveFirst {σ : Type} (opt : DequeueOptions) (w : World σ) : DequeueOut σ :=
  match w.jobs with
  | [] => { result := .panicked, opt := opt, world := w }
  | job :: rest => { result := .ret job, opt := opt, world := { w with jobs := rest } }

/-- Go's `getDequeueFunc`. Without the bulk capability it is `queue.Dequeue`;
with it, the closure over the buffer `jobs`. -/
def getDequeueFunc {σ : Type} (queue : Queue σ) : DequeueFunc σ :=
  match queue.bulk with
  | none => fun opt w =>
    let r := queue.Dequeue opt w.ext
    { result := r.1, opt := r.2.1, world := { w with ext := r.2.2 } }
  | some bulkDeq => fun opt w =>
    if w.jobs.length = 0 then
      let bulkOpt : DequeueOptions :=
        { opt with InvisibleSec := wrap64 (opt.InvisibleSec * 1000) }
      let r := bulkDeq.BulkDequeue 1000 bulkOpt w.ext
      let w1 : World σ := { w with jobs := r.1.1, ext := r.2 }
      match r.1.2 with
      | some err => { result := .fail err, opt := opt, world := w1 }
      | none => serveFirst opt w1
    else serveFirst opt w

/-! ## `Worker.start` -/

/-- The `dequeue` function built at the top of `Worker.start`. -/
def Worker.dequeue {σ : Type} (ErrEmptyQueue : Error) (pause : Int → World σ → World σ)
    (w : Worker σ) (h : handler σ) : DequeueFunc σ :=
  idleWait ErrEmptyQueue pause h.JobOptions.IdleWait
    (h.JobOptions.DequeueMiddleware.foldl (fun dequeue mw => mw dequeue)
      (getDequeueFunc w.queue))

/-- The user's part of the handle stack in `Worker.start`: the handle
middleware applied in list order around the registered handler. -/
def userChain {σ : Type} (h : handler σ) : HandleFunc σ :=
  h.JobOptions.HandleMiddleware.foldl (fun handle mw => mw handle) h.HandleFunc

/-- The `handle` function built at the top of `Worker.start`; `now` is what
`retry` reads from the clock during the call. -/
def Worker.handle {σ : Type} (now : Int) (w : Worker σ) (h : handler σ) : HandleFunc σ :=
  retry now w.queue (catchPanic (userChain h))

/-- The loop `for _, job := range ackJobs` of the flush closure. -/
def ackEach {σ : Type} (queue : Queue σ) (opt : AckOptions) : List Job → σ → Option Error × σ
  | [], s => (none, s)
  | job :: rest, s =>
    match queue.Ack job opt s with
    | (some err, s1) => (some err, s1)
    | (none, s1) => ackEach queue opt rest s1

/-- The closure `flush` of `Worker.start`. -/
def Worker.flush {σ : Type} (w : Worker σ) (h : handler σ) (wld : World σ) :
    Option Error × World σ :=
  let opt : AckOptions := { Namespace := w.namespace_, QueueID := h.QueueID }
  match w.queue.bulk with
  | some bulkDeq =>
    match bulkDeq.BulkAck wld.ackJobs opt wld.ext with
    | (some err, s) => (some err, { wld with ext := s })
    | (none, s) => (none, { wld with ext := s, ackJobs := [] })
  | none =>
    match ackEach w.queue opt wld.ackJobs wld.ext with
    | (some err, s) => (some err, { wld with ext := s })
    | (none, s) => (none, { wld with ext := s, ackJobs := [] })

/-- Go's `flushIntv`. -/
def flushIntv : Int := Second

/-- The `DequeueOptions` built in the default branch of the loop; `at_` is the
value read from `time.Now()`. Go's `/` on integers truncates toward zero. -/
def Worker.dequeueOptions {σ : Type} (w : Worker σ) (h : handler σ) (at_ : Int) :
    DequeueOptions :=
  { Namespace := w.namespace_
    QueueID := h.QueueID
    At := at_
    InvisibleSec :=
      Int.tdiv (wrap64 (2 * wrap64 (h.JobOptions.MaxExecutionTime + flushIntv))) Second }

/-- The default branch of the `select` in `Worker.start`, for given `dequeue`
and `handle`. `none`: the goroutine panicked. -/
def Worker.defaultBranch {σ : Type} (w : Worker σ) (h : handler σ) (dequeue : DequeueFunc σ)
    (handle : HandleFunc σ) (at_ : Int) (wld : World σ) : Option (World σ) :=
  let opt := w.dequeueOptions h at_
  let d := dequeue opt wld
  match d.result with
  | .panicked => none
  | .fail _ => some d.world
  | .ret job =>
    let o := handle job d.opt d.world
    match o.result with
    | .panicked _ => none
    | .ret (some _) => some o.world
    | .ret none =>
      let wld1 : World σ := { o.world with ackJobs := o.world.ackJobs ++ [o.job] }
      if wld1.ackJobs.length ≥ 1000 then some (w.flush h wld1).2 else some wld1

/-- One pass through the default branch of `Worker.start` with the functions
the worker builds; `at_` and `now` are the two clock readings. -/
def Worker.iteration {σ : Type} (ErrEmptyQueue : Error) (pause : Int → World σ → World σ)
    (w : Worker σ) (h : handler σ) (at_ now : Int) (wld : World σ) : Option (World σ) :=
  w.defaultBranch h (w.dequeue ErrEmptyQueue pause h) (w.handle now h) at_ wld

/-! ## Reference forms and concrete instances used in the statements -/

/-- The nesting `f_n(f_{n-1}(… f_1(base)))`: the last entry of the list is applied
last and is the outermost wrapper. -/
def nested {α : Type} (mws : List (α → α)) (base : α) : α :=
  mws.reverse.foldr (fun mw inner => mw inner) base

/-- A call received by the recording queue. -/
inductive Call where
  | Enqueue (job : Job) (opt : EnqueueOptions)
  | Dequeue (opt : DequeueOptions)
  | Ack (job : Job) (opt : AckOptions)
  | BulkDequeue (count : Int) (opt : DequeueOptions)
  | BulkAck (jobs : List Job) (opt : AckOptions)
  deriving DecidableEq, Repr

/-- A queue whose state is the list of calls it has received. `Ack` answers with
`ackErr`, `Dequeue` with `deq`; with `bulk = some r` it has the bulk capability
and `BulkDequeue` answers `r`. -/
def recorder (ackErr : Job → Option Error) (deq : DequeueResult)
    (bulk : Option (List Job × Option Error)) : Queue (List Call) :=
  { Enqueue := fun job opt s => (none, s ++ [Call.Enqueue job opt])
    Dequeue := fun opt s => (deq, opt, s ++ [Call.Dequeue opt])
    Ack := fun job opt s => (ackErr job, s ++ [Call.Ack job opt])
    bulk := bulk.map fun r =>
      { BulkDequeue := fun count opt s => (r, s ++ [Call.BulkDequeue count opt])
        BulkAck := fun jobs opt s => (none, s ++ [Call.BulkAck jobs opt]) } }

/-- A job as `NewJob` leaves it, up to its identifier and instants. -/
def job0 : Job :=
  { ID := "j", Payload := [], EnqueuedAt := 0, UpdatedAt := 0, CreatedAt := 0,
    Retries := 0, LastError := "" }

/-- Options of a handler that runs jobs for at most 30 seconds. -/
def opts30 (σ : Type) : JobOptions σ :=
  { MaxExecutionTime := 30 * Second, IdleWait := Second, NumGoroutines := 2,
    DequeueMiddleware := [], HandleMiddleware := [] }

/-- A handler that succeeds without touching anything. -/
def okHandle (σ : Type) : HandleFunc σ :=
  fun job opt w => { result := .ret none, job := job, opt := opt, world := w }

/-- An empty world around an outside state. -/
def emptyWorld {σ : Type} (s : σ) : World σ := { ext := s, jobs := [], ackJobs := [] }

/-- A worker on the recording queue with no handler registered. -/
def worker0 (q : Queue (List Call)) : Worker (List Call) :=
  { namespace_ := "ns1", queue := q, handlerMap := fun _ => none }

/-- A handler that returns the error `e` without touching anything. -/
def failWith (σ : Type) (e : Error) : HandleFunc σ :=
  fun job opt w => { result := .ret (some e), job := job, opt := opt, world := w }

/-- The recording queue without the bulk capability, every `Ack` succeeding. -/
def plainRecorder : Queue (List Call) :=
  recorder (fun _ => none) (.fail (.other "empty")) none

/-- Dequeue options of queue `q1` in namespace `ns1` with a given window. -/
def optsFor (invisibleSec : Int) : DequeueOptions :=
  { Namespace := "ns1", QueueID := "q1", At := 0, InvisibleSec := invisibleSec }

/-- The job `job0` after a first failure with message `msg` at instant `now` under
a window of `invisibleSec` seconds, as the linear backoff prescribes. -/
def job0Failed (msg : String) (now invisibleSec : Int) : Job :=
  { job0 with
    Retries := 1, LastError := msg, UpdatedAt := now,
    EnqueuedAt := now + 1 * invisibleSec * Second }

/-- A job passed `k` times in a row through `retry(queue)(f)` with the same
options; `nows i` is the clock reading of pass `i + 1`. -/
def retryTimes {σ : Type} (nows : Nat → Int) (queue : Queue σ) (f : HandleFunc σ)
    (opt : DequeueOptions) : Nat → Job → World σ → HandleOut σ
  | 0, job, w => { result := .ret none, job := job, opt := opt, world := w }
  | k + 1, job, w =>
    retry (nows k) queue f (retryTimes nows queue f opt k job w).job opt
      (retryTimes nows queue f opt k job w).world

/-- The outside state after `Ack` has been called on each job of a list, in
list order, whatever the calls answer. -/
def ackRun {σ : Type} (queue : Queue σ) (opt : AckOptions) : List Job → σ → σ
  | [], s => s
  | job :: rest, s => ackRun queue opt rest (queue.Ack job opt s).2

/-- The answers of those `Ack` calls, in order. -/
def ackResults {σ : Type} (queue : Queue σ) (opt : AckOptions) :
    List Job → σ → List (Option Error)
  | [], _ => []
  | job :: rest, s => (queue.Ack job opt s).1 :: ackResults queue opt rest (queue.Ack job opt s).2

/-- Consecutive calls of a dequeue function, one for each entry of a list of
options: the results in order and the world left behind. -/
def callEach {σ : Type} (f : DequeueFunc σ) :
    List DequeueOptions → World σ → List DequeueResult × World σ
  | [], w => ([], w)
  | opt :: rest, w =>
    ((f opt w).result :: (callEach f rest (f opt w).world).1,
      (callEach f rest (f opt w).world).2)

/-- The recording queue with the bulk capability, `BulkDequeue` answering `r`. -/
def bulkRecorder (r : List Job × Option Error) : Queue (List Call) :=
  recorder (fun _ => none) (.fail (.other "empty")) (some r)

/-- A second job. -/
def job1 : Job := { job0 with ID := "k" }

/-- The recording queue whose `Dequeue` always hands out `job0`. -/
def servingRecorder : Queue (List Call) :=
  recorder (fun _ => none) (.ret job0) none

/-- A handler registered for queue `q1` that always fails with "boom". -/
def failingHandler : handler (List Call) :=
  { QueueID := "q1", HandleFunc := failWith (List Call) (.other "boom"),
    JobOptions := opts30 (List Call) }

/-- A handler registered for queue `q1` that panics with a nil value, as
`var err error; panic(err)` does. -/
def nilPanicHandler : handler (List Call) :=
  { QueueID := "q1"
    HandleFunc := fun job opt w =>
      { result := .panicked none, job := job, opt := opt, world := w }
    JobOptions := opts30 (List Call) }

/-! ## Arithmetic lemmas -/

theorem wrap64_of_fits {x : Int} (hlo : minInt64 ≤ x) (hhi : x ≤ maxInt64) : wrap64 x = x := by
  simp only [minInt64, maxInt64] at hlo hhi
  simp only [wrap64]
  omega

theorem wrap64_fits (x : Int) : minInt64 ≤ wrap64 x ∧ wrap64 x ≤ maxInt64 := by
  simp only [minInt64, maxInt64, wrap64]
  omega

/-! ## Registration -/

/-- C9: `Register` returns nil exactly when the three options are positive;
otherwise it returns the error of the first failing check, in the order
`ErrMaxExecutionTime`, `ErrIdleWait`, `ErrNumGoroutines`, and leaves the worker
(hence its handler map, and the loops `Start` launches) as it was; on success the entry for `queueID` is the new
handler and every other entry, the namespace and the queue are unchanged. -/
theorem Register_validates {σ : Type} (w : Worker σ) (queueID : String) (h : HandleFunc σ)
    (opt : JobOptions σ) :
    ((w.Register queueID h opt).1 = none ↔
        0 < opt.MaxExecutionTime ∧ 0 < opt.IdleWait ∧ 0 < opt.NumGoroutines) ∧
    (opt.MaxExecutionTime ≤ 0 →
        (w.Register queueID h opt).1 = some Error.ErrMaxExecutionTime) ∧
    (0 < opt.MaxExecutionTime → opt.IdleWait ≤ 0 →
        (w.Register queueID h opt).1 = some Error.ErrIdleWait) ∧
    (0 < opt.MaxExecutionTime → 0 < opt.IdleWait → opt.NumGoroutines ≤ 0 →
        (w.Register queueID h opt).1 = some Error.ErrNumGoroutines) ∧
    ((w.Register queueID h opt).1 ≠ none →
        (w.Register queueID h opt).2 = w ∧
        ∀ k, (w.Register queueID h opt).2.Start k = w.Start k) ∧
    ((w.Register queueID h opt).1 = none →
        (w.Register queueID h opt).2.handlerMap queueID =
            some { QueueID := queueID, HandleFunc := h, JobOptions := opt } ∧
        (∀ k, k ≠ queueID → (w.Register queueID h opt).2.handlerMap k = w.handlerMap k) ∧
        (w.Register queueID h opt).2.namespace_ = w.namespace_ ∧
        (w.Register queueID h opt).2.queue = w.queue) := by
  by_cases h1 : opt.MaxExecutionTime ≤ 0
  · have hv : opt.Validate = some Error.ErrMaxExecutionTime := by
      simp [JobOptions.Validate, h1]
    simp only [Worker.Register, hv]
    refine ⟨?_, ?_, ?_, ?_, ?_, ?_⟩
    · constructor
      · intro hh; simp at hh
      · intro hh; omega
    · intro _; trivial
    · intro hh; omega
    · intro hh; omega
    · intro _; simp
    · intro hh; simp at hh
  · by_cases h2 : opt.IdleWait ≤ 0
    · have hv : opt.Validate = some Error.ErrIdleWait := by
        simp [JobOptions.Validate, h1, h2]
      simp only [Worker.Register, hv]
      refine ⟨?_, ?_, ?_, ?_, ?_, ?_⟩
      · constructor
        · intro hh; simp at hh
        · intro hh; omega
      · intro hh; omega
      · intro _ _; trivial
      · intro _ hh; omega
      · intro _; simp
      · intro hh; simp at hh
    · by_cases h3 : opt.NumGoroutines ≤ 0
      · have hv : opt.Validate = some Error.ErrNumGoroutines := by
          simp [JobOptions.Validate, h1, h2, h3]
        simp only [Worker.Register, hv]
        refine ⟨?_, ?_, ?_, ?_, ?_, ?_⟩
        · constructor
          · intro hh; simp at hh
          · intro hh; omega
        · intro hh; omega
        · intro _ hh; omega
        · intro _ _ _; trivial
        · intro _; simp
        · intro hh; simp at hh
      · have hv : opt.Validate = none := by
          simp [JobOptions.Validate, h1, h2, h3]
        simp only [Worker.Register, hv]
        refine ⟨?_, ?_, ?_, ?_, ?_, ?_⟩
        · constructor
          · intro _; omega
          · intro _; trivial
        · intro hh; omega
        · intro _ hh; omega
        · intro _ _ hh; omega
        · intro hh; exact absurd rfl hh
        · intro _
          refine ⟨?_, ?_, trivial, trivial⟩
          · simp
          · intro k hk
            simp [hk]

/-! ## The visibility window -/

/-- C5: with `MaxExecutionTime > 0` and `2 × (MaxExecutionTime + 1 s)` within
`int64`, the options built in the loop have
`InvisibleSec = ⌊2 × (MaxExecutionTime + 1 s) / 1 s⌋` (doubling before dividing),
which is at least 2, and carry the worker's namespace and the handler's queue
ID. -/
theorem dequeueOptions_window {σ : Type} (w : Worker σ) (h : handler σ) (at_ : Int)
    (hpos : 0 < h.JobOptions.MaxExecutionTime)
    (hfit : 2 * (h.JobOptions.MaxExecutionTime + Second) ≤ maxInt64) :
    (w.dequeueOptions h at_).InvisibleSec
        = (2 * (h.JobOptions.MaxExecutionTime + Second)) / Second ∧
    2 ≤ (w.dequeueOptions h at_).InvisibleSec ∧
    (w.dequeueOptions h at_).Namespace = w.namespace_ ∧
    (w.dequeueOptions h at_).QueueID = h.QueueID := by
  simp only [Second, maxInt64] at hfit
  have e1 : wrap64 (h.JobOptions.MaxExecutionTime + flushIntv)
      = h.JobOptions.MaxExecutionTime + 1000000000 := by
    simp only [wrap64, flushIntv, Second]; omega
  have e2 : wrap64 (2 * (h.JobOptions.MaxExecutionTime + 1000000000))
      = 2 * (h.JobOptions.MaxExecutionTime + 1000000000) := by
    simp only [wrap64]; omega
  have e3 : (w.dequeueOptions h at_).InvisibleSec
      = (2 * (h.JobOptions.MaxExecutionTime + Second)) / Second := by
    simp only [Worker.dequeueOptions, e1, e2, Second]
    exact Int.tdiv_eq_ediv (by omega) (by omega)
  refine ⟨e3, ?_, rfl, rfl⟩
  rw [e3]
  simp only [Second]
  omega

/-- Witness for C5: a 30 second handler gets a 62 second window. -/
theorem dequeueOptions_window_witness :
    (0 < (30 * Second : Int) ∧ 2 * (30 * Second + Second) ≤ maxInt64) ∧
    ((worker0 (recorder (fun _ => none) .panicked none)).dequeueOptions
        { QueueID := "q1", HandleFunc := okHandle (List Call), JobOptions := opts30 (List Call) }
        7).InvisibleSec = 62 :=
  ⟨by decide, by
    have := dequeueOptions_window (worker0 (recorder (fun _ => none) .panicked none))
      { QueueID := "q1", HandleFunc := okHandle (List Call), JobOptions := opts30 (List Call) }
      7 (by decide) (by decide)
    rw [this.1]; decide⟩

/-! ## Middleware stacks -/

/-- C8: the loop's dequeue function is `idleWait(dₙ(…d₁(base)…))` and its handle
function is `retry(catchPanic(hₘ(…h₁(userHandler)…)))`, the first registered
middleware innermost; `AddDequeueMiddleware` and `AddHandleMiddleware` append
at the end of their lists and leave the other fields alone, so the middleware
added last wraps the stack of the earlier ones. -/
theorem start_stacks {σ : Type} (ErrEmptyQueue : Error) (pause : Int → World σ → World σ)
    (now : Int) (w : Worker σ) (h : handler σ)
    (dmw dmw2 : DequeueMiddleware σ) (hmw hmw2 : HandleMiddleware σ) (opt : JobOptions σ)
    (dbase : DequeueFunc σ) (hbase : HandleFunc σ) :
    w.dequeue ErrEmptyQueue pause h
        = idleWait ErrEmptyQueue pause h.JobOptions.IdleWait
            (nested h.JobOptions.DequeueMiddleware (getDequeueFunc w.queue)) ∧
    w.handle now h
        = retry now w.queue (catchPanic (nested h.JobOptions.HandleMiddleware h.HandleFunc)) ∧
    (opt.AddDequeueMiddleware dmw).DequeueMiddleware = opt.DequeueMiddleware ++ [dmw] ∧
    (opt.AddDequeueMiddleware dmw).HandleMiddleware = opt.HandleMiddleware ∧
    (opt.AddHandleMiddleware hmw).HandleMiddleware = opt.HandleMiddleware ++ [hmw] ∧
    (opt.AddHandleMiddleware hmw).DequeueMiddleware = opt.DequeueMiddleware ∧
    nested ([] : List (DequeueMiddleware σ)) dbase = dbase ∧
    nested (opt.AddDequeueMiddleware dmw).DequeueMiddleware dbase
        = dmw (nested opt.DequeueMiddleware dbase) ∧
    nested ([] : List (HandleMiddleware σ)) hbase = hbase ∧
    nested (opt.AddHandleMiddleware hmw).HandleMiddleware hbase
        = hmw (nested opt.HandleMiddleware hbase) ∧
    nested [dmw, dmw2] dbase = dmw2 (dmw dbase) ∧
    nested [hmw, hmw2] hbase = hmw2 (hmw hbase) := by
  refine ⟨?_, ?_, rfl, rfl, rfl, rfl, rfl, ?_, rfl, ?_, rfl, rfl⟩
  · simp [Worker.dequeue, nested]
  · simp [Worker.handle, userChain, nested]
  · simp [nested, JobOptions.AddDequeueMiddleware]
  · simp [nested, JobOptions.AddHandleMiddleware]

/-! ## The retry middleware -/

theorem retry_of_error {σ : Type} (now : Int) (queue : Queue σ) (f : HandleFunc σ) (job : Job)
    (opt : DequeueOptions) (w : World σ) (e : Error)
    (hres : (f job opt w).result = .ret (some e)) (hne : e ≠ Error.ErrUnrecoverable) :
    retry now queue f job opt w =
      { result := .ret (some e)
        job := retryUpdate now e (f job opt w).job (f job opt w).opt
        opt := (f job opt w).opt
        world :=
          { (f job opt w).world with
            ext := (queue.Enqueue (retryUpdate now e (f job opt w).job (f job opt w).opt)
              { Namespace := (f job opt w).opt.Namespace, QueueID := (f job opt w).opt.QueueID }
              (f job opt w).world.ext).2 } } := by
  simp only [retry, hres]
  simp [hne]

theorem retry_of_unrecoverable {σ : Type} (now : Int) (queue : Queue σ) (f : HandleFunc σ)
    (job : Job) (opt : DequeueOptions) (w : World σ)
    (hres : (f job opt w).result = .ret (some Error.ErrUnrecoverable)) :
    retry now queue f job opt w = { f job opt w with result := .ret none } := by
  simp only [retry, hres]
  simp

theorem retry_of_nil {σ : Type} (now : Int) (queue : Queue σ) (f : HandleFunc σ)
    (job : Job) (opt : DequeueOptions) (w : World σ)
    (hres : (f job opt w).result = .ret none) :
    retry now queue f job opt w = f job opt w := by
  simp only [retry, hres]

theorem backoff_fits {r i : Int} (hlo : minInt64 ≤ r * i * Second)
    (hhi : r * i * Second ≤ maxInt64) :
    wrap64 (wrap64 (r * i) * Second) = r * i * Second := by
  generalize r * i = p at hlo hhi
  simp only [minInt64, maxInt64, Second] at hlo hhi
  simp only [wrap64, Second]
  omega

/-- C1 (amended): when the inner handler returns a non-nil error `e` other than
`ErrUnrecoverable`, `retry`, reading the clock as `now`, returns `e`, sets
`LastError` to the message of `e` and `UpdatedAt` to `now`, leaves `ID`,
`Payload` and `CreatedAt`, and changes the world by one `Enqueue` of the updated
job under the options' namespace and queue ID, whatever `Enqueue` answers.
`Retries` is incremented in `int64`: by exactly one unless it was the largest
`int64`. `EnqueuedAt` is `now` plus the `int64` nanosecond product: exactly
`now + (Retries + 1) × InvisibleSec` seconds when
`(Retries + 1) × InvisibleSec × 10⁹` fits in `int64`. The job and options are
the ones the inner handler leaves behind. -/
theorem retry_requeues {σ : Type} (now : Int) (queue : Queue σ) (f : HandleFunc σ) (job : Job)
    (opt : DequeueOptions) (w : World σ) (e : Error)
    (hres : (f job opt w).result = .ret (some e)) (hne : e ≠ Error.ErrUnrecoverable) :
    (retry now queue f job opt w).result = .ret (some e) ∧
    (retry now queue f job opt w).job.Retries = wrap64 ((f job opt w).job.Retries + 1) ∧
    (minInt64 ≤ (f job opt w).job.Retries → (f job opt w).job.Retries < maxInt64 →
      (retry now queue f job opt w).job.Retries = (f job opt w).job.Retries + 1) ∧
    (retry now queue f job opt w).job.LastError = e.Error ∧
    (retry now queue f job opt w).job.UpdatedAt = now ∧
    (retry now queue f job opt w).job.EnqueuedAt
      = now + wrap64 (wrap64 (wrap64 ((f job opt w).job.Retries + 1)
          * (f job opt w).opt.InvisibleSec) * Second) ∧
    (minInt64 ≤ (f job opt w).job.Retries → (f job opt w).job.Retries < maxInt64 →
      minInt64 ≤ ((f job opt w).job.Retries + 1) * (f job opt w).opt.InvisibleSec * Second →
      ((f job opt w).job.Retries + 1) * (f job opt w).opt.InvisibleSec * Second ≤ maxInt64 →
      (retry now queue f job opt w).job.EnqueuedAt
        = now + ((f job opt w).job.Retries + 1) * (f job opt w).opt.InvisibleSec * Second) ∧
    (retry now queue f job opt w).job.ID = (f job opt w).job.ID ∧
    (retry now queue f job opt w).job.Payload = (f job opt w).job.Payload ∧
    (retry now queue f job opt w).job.CreatedAt = (f job opt w).job.CreatedAt ∧
    (retry now queue f job opt w).opt = (f job opt w).opt ∧
    (retry now queue f job opt w).world =
      { (f job opt w).world with
        ext := (queue.Enqueue (retry now queue f job opt w).job
          { Namespace := (f job opt w).opt.Namespace, QueueID := (f job opt w).opt.QueueID }
          (f job opt w).world.ext).2 } := by
  have e1 : minInt64 ≤ (f job opt w).job.Retries → (f job opt w).job.Retries < maxInt64 →
      wrap64 ((f job opt w).job.Retries + 1) = (f job opt w).job.Retries + 1 := by
    intro hmin hmax
    exact wrap64_of_fits (by simp only [minInt64, maxInt64] at *; omega)
      (by simp only [minInt64, maxInt64] at *; omega)
  rw [retry_of_error now queue f job opt w e hres hne]
  refine ⟨rfl, rfl, ?_, rfl, rfl, rfl, ?_, rfl, rfl, rfl, rfl, rfl⟩
  · intro hmin hmax
    simp [retryUpdate, e1 hmin hmax]
  · intro hmin hmax hlo hhi
    simp [retryUpdate, e1 hmin hmax, backoff_fits hlo hhi, timeAdd]

/-- Witness for C1: a fresh job failing with "boom" at instant 100 under a
62 second window is re-enqueued once, 62 seconds later. -/
theorem retry_requeues_witness :
    (retry 100 plainRecorder (failWith (List Call) (.other "boom")) job0 (optsFor 62)
        (emptyWorld [])).job.Retries = 1 ∧
    (retry 100 plainRecorder (failWith (List Call) (.other "boom")) job0 (optsFor 62)
        (emptyWorld [])).job.EnqueuedAt = 100 + 62 * Second ∧
    (retry 100 plainRecorder (failWith (List Call) (.other "boom")) job0 (optsFor 62)
        (emptyWorld [])).world.ext
      = [Call.Enqueue (job0Failed "boom" 100 62) { Namespace := "ns1", QueueID := "q1" }] := by
  have h := retry_requeues 100 plainRecorder (failWith (List Call) (.other "boom")) job0
    (optsFor 62) (emptyWorld []) (.other "boom") rfl (by decide)
  refine ⟨h.2.2.1 (by decide) (by decide), ?_, ?_⟩
  · exact h.2.2.2.2.2.2.1 (by decide) (by decide) (by decide) (by decide)
  · rw [h.2.2.2.2.2.2.2.2.2.2.2]
    decide

/-- Counterexample to C1 as stated: for a job that has already been retried
148764065 times, under the 62 second window of a 30 second handler, the
nanosecond product `148764066 × 62 × 10⁹` overflows `int64`, and the job is
scheduled before `now = 0` instead of `148764066 × 62` seconds after it. -/
theorem retry_requeues_overflow :
    (retry 0 plainRecorder (failWith (List Call) (.other "boom"))
        { job0 with Retries := 148764065 } (optsFor 62) (emptyWorld [])).job.Retries
      = 148764066 ∧
    (retry 0 plainRecorder (failWith (List Call) (.other "boom"))
        { job0 with Retries := 148764065 } (optsFor 62) (emptyWorld [])).job.EnqueuedAt
      = -9223371981709551616 ∧
    (retry 0 plainRecorder (failWith (List Call) (.other "boom"))
        { job0 with Retries := 148764065 } (optsFor 62) (emptyWorld [])).job.EnqueuedAt
      ≠ 0 + 148764066 * 62 * Second := by
  decide

/-- C2 (amended): when the inner handler returns `ErrUnrecoverable`, `retry`
returns nil, and leaves the job, the options and the world exactly as the inner
handler left them: `Enqueue` is not called and `Retries`, `LastError`,
`UpdatedAt` and `EnqueuedAt` are not written. -/
theorem retry_unrecoverable {σ : Type} (now : Int) (queue : Queue σ) (f : HandleFunc σ)
    (job : Job) (opt : DequeueOptions) (w : World σ)
    (hres : (f job opt w).result = .ret (some Error.ErrUnrecoverable)) :
    (retry now queue f job opt w).result = .ret none ∧
    (retry now queue f job opt w).world = (f job opt w).world ∧
    (retry now queue f job opt w).job = (f job opt w).job ∧
    (retry now queue f job opt w).job.Retries = (f job opt w).job.Retries ∧
    (retry now queue f job opt w).job.LastError = (f job opt w).job.LastError ∧
    (retry now queue f job opt w).job.UpdatedAt = (f job opt w).job.UpdatedAt ∧
    (retry now queue f job opt w).job.EnqueuedAt = (f job opt w).job.EnqueuedAt ∧
    (retry now queue f job opt w).opt = (f job opt w).opt := by
  rw [retry_of_unrecoverable now queue f job opt w hres]
  exact ⟨rfl, rfl, rfl, rfl, rfl, rfl, rfl, rfl⟩

/-- Witness for C2: on the recording queue nothing is recorded and the job is
untouched. -/
theorem retry_unrecoverable_witness :
    (retry 100 plainRecorder (failWith (List Call) Error.ErrUnrecoverable) job0 (optsFor 62)
        (emptyWorld [])).world = emptyWorld [] ∧
    (retry 100 plainRecorder (failWith (List Call) Error.ErrUnrecoverable) job0 (optsFor 62)
        (emptyWorld [])).job = job0 :=
  ⟨(retry_unrecoverable 100 plainRecorder (failWith (List Call) Error.ErrUnrecoverable) job0
      (optsFor 62) (emptyWorld []) rfl).2.1,
   (retry_unrecoverable 100 plainRecorder (failWith (List Call) Error.ErrUnrecoverable) job0
      (optsFor 62) (emptyWorld []) rfl).2.2.1⟩

/-- Counterexample to C2 as stated: a handler returning `ErrUnrecoverable` makes
`retry` return nil, not `ErrUnrecoverable`. -/
theorem retry_unrecoverable_returns_nil :
    (retry 100 plainRecorder (failWith (List Call) Error.ErrUnrecoverable) job0 (optsFor 62)
        (emptyWorld [])).result = .ret none ∧
    (retry 100 plainRecorder (failWith (List Call) Error.ErrUnrecoverable) job0 (optsFor 62)
        (emptyWorld [])).result ≠ .ret (some Error.ErrUnrecoverable) := by
  decide

/-! ## The ack flush -/

theorem ackEach_none {σ : Type} (queue : Queue σ) (opt : AckOptions) (jobs : List Job) (s s1 : σ)
    (h : ackEach queue opt jobs s = (none, s1)) :
    s1 = ackRun queue opt jobs s ∧
    ackResults queue opt jobs s = List.replicate jobs.length none := by
  induction jobs generalizing s with
  | nil =>
    simp only [ackEach, Prod.mk.injEq, true_and] at h
    simp [ackRun, ackResults, h]
  | cons job rest ih =>
    simp only [ackEach] at h
    rcases hA : queue.Ack job opt s with ⟨r, s2⟩
    rw [hA] at h
    cases r with
    | some e => simp at h
    | none =>
      simp only at h
      have := ih s2 h
      simp [ackRun, ackResults, hA, this.1, this.2, List.replicate_succ]

theorem ackEach_some {σ : Type} (queue : Queue σ) (opt : AckOptions) (jobs : List Job) (s s1 : σ)
    (e : Error) (h : ackEach queue opt jobs s = (some e, s1)) :
    ∃ pre job post, jobs = pre ++ job :: post ∧
      s1 = ackRun queue opt (pre ++ [job]) s ∧
      ackResults queue opt (pre ++ [job]) s = List.replicate pre.length none ++ [some e] := by
  induction jobs generalizing s with
  | nil => simp [ackEach] at h
  | cons job rest ih =>
    simp only [ackEach] at h
    rcases hA : queue.Ack job opt s with ⟨r, s2⟩
    rw [hA] at h
    cases r with
    | some e2 =>
      simp only [Prod.mk.injEq, Option.some.injEq] at h
      refine ⟨[], job, rest, rfl, ?_, ?_⟩
      · simp [ackRun, hA, h.2]
      · simp [ackResults, hA, h.1]
    | none =>
      simp only at h
      obtain ⟨pre, j, post, hj, hs, hr⟩ := ih s2 h
      refine ⟨job :: pre, j, post, by simp [hj], ?_, ?_⟩
      · simp [ackRun, hA, hs]
      · simp [ackResults, hA, hr, List.replicate_succ]

/-- C6: the flush closure leaves the batch as it was when it returns an error
and empty when it returns nil, and never touches the dequeue buffer. With the
bulk capability its effect on the outside is one `BulkAck` of the whole batch,
whose answer it returns. Without it, it calls `Ack` on the jobs in batch order:
on all of them, every answer nil, when it returns nil; on a prefix ending at
the first job whose `Ack` fails, whose error it returns, otherwise. -/
theorem flush_batch {σ : Type} (w : Worker σ) (h : handler σ) (wld : World σ) :
    ((w.flush h wld).1 ≠ none → (w.flush h wld).2.ackJobs = wld.ackJobs) ∧
    ((w.flush h wld).1 = none → (w.flush h wld).2.ackJobs = []) ∧
    (w.flush h wld).2.jobs = wld.jobs ∧
    (∀ b, w.queue.bulk = some b →
      (w.flush h wld).1
        = (b.BulkAck wld.ackJobs { Namespace := w.namespace_, QueueID := h.QueueID } wld.ext).1 ∧
      (w.flush h wld).2.ext
        = (b.BulkAck wld.ackJobs { Namespace := w.namespace_, QueueID := h.QueueID } wld.ext).2) ∧
    (w.queue.bulk = none →
      ((w.flush h wld).1 = none →
        (w.flush h wld).2.ext
          = ackRun w.queue { Namespace := w.namespace_, QueueID := h.QueueID } wld.ackJobs wld.ext ∧
        ackResults w.queue { Namespace := w.namespace_, QueueID := h.QueueID } wld.ackJobs wld.ext
          = List.replicate wld.ackJobs.length none) ∧
      (∀ e, (w.flush h wld).1 = some e →
        ∃ pre job post, wld.ackJobs = pre ++ job :: post ∧
          (w.flush h wld).2.ext
            = ackRun w.queue { Namespace := w.namespace_, QueueID := h.QueueID }
                (pre ++ [job]) wld.ext ∧
          ackResults w.queue { Namespace := w.namespace_, QueueID := h.QueueID }
              (pre ++ [job]) wld.ext
            = List.replicate pre.length none ++ [some e])) := by
  cases hb : w.queue.bulk with
  | some b =>
    rcases hB : b.BulkAck wld.ackJobs { Namespace := w.namespace_, QueueID := h.QueueID } wld.ext
      with ⟨r, s⟩
    cases r with
    | none => simp [Worker.flush, hb, hB]
    | some e => simp [Worker.flush, hb, hB]
  | none =>
    rcases hE : ackEach w.queue { Namespace := w.namespace_, QueueID := h.QueueID }
      wld.ackJobs wld.ext with ⟨r, s⟩
    cases r with
    | none =>
      have := ackEach_none _ _ _ _ _ hE
      simp [Worker.flush, hb, hE, this.1, this.2]
    | some e =>
      obtain ⟨pre, job, post, hj, hs, hr⟩ := ackEach_some _ _ _ _ _ _ hE
      simp only [Worker.flush, hb, hE]
      refine ⟨fun _ => trivial, fun hh => by simp at hh, trivial, fun b hh => by simp at hh,
        fun _ => ?_⟩
      refine ⟨fun hh => by simp at hh, fun e2 he2 => ?_⟩
      simp only [Option.some.injEq] at he2
      subst he2
      exact ⟨pre, job, post, hj, hs, hr⟩

/-! ## The bulk-dequeue adapter -/

theorem getDequeueFunc_of_bulk {σ : Type} (queue : Queue σ) (b : bulkDequeuer σ)
    (hb : queue.bulk = some b) (opt : DequeueOptions) (w : World σ) :
    getDequeueFunc queue opt w =
      if w.jobs.length = 0 then
        match (b.BulkDequeue 1000
            { opt with InvisibleSec := wrap64 (opt.InvisibleSec * 1000) } w.ext).1.2 with
        | some err =>
          { result := .fail err, opt := opt,
            world := { w with
              jobs := (b.BulkDequeue 1000
                { opt with InvisibleSec := wrap64 (opt.InvisibleSec * 1000) } w.ext).1.1
              ext := (b.BulkDequeue 1000
                { opt with InvisibleSec := wrap64 (opt.InvisibleSec * 1000) } w.ext).2 } }
        | none =>
          serveFirst opt
            { w with
              jobs := (b.BulkDequeue 1000
                { opt with InvisibleSec := wrap64 (opt.InvisibleSec * 1000) } w.ext).1.1
              ext := (b.BulkDequeue 1000
                { opt with InvisibleSec := wrap64 (opt.InvisibleSec * 1000) } w.ext).2 }
      else serveFirst opt w := by
  simp only [getDequeueFunc, hb]

theorem getDequeueFunc_of_buffer {σ : Type} (queue : Queue σ) (b : bulkDequeuer σ)
    (hb : queue.bulk = some b) (opt : DequeueOptions) (w : World σ) (job : Job) (rest : List Job)
    (hw : w.jobs = job :: rest) :
    getDequeueFunc queue opt w
      = { result := .ret job, opt := opt, world := { w with jobs := rest } } := by
  rw [getDequeueFunc_of_bulk queue b hb]
  simp [hw, serveFirst]

theorem callEach_of_buffer {σ : Type} (queue : Queue σ) (b : bulkDequeuer σ)
    (hb : queue.bulk = some b) (js : List Job) :
    ∀ (opts : List DequeueOptions) (w : World σ), w.jobs = js → opts.length = js.length →
      callEach (getDequeueFunc queue) opts w = (js.map .ret, { w with jobs := [] }) := by
  induction js with
  | nil =>
    intro opts w hw hlen
    have : opts = [] := List.length_eq_zero.mp (by simpa using hlen)
    subst this
    cases w
    simp only at hw
    subst hw
    simp [callEach]
  | cons j js ih =>
    intro opts w hw hlen
    cases opts with
    | nil => simp at hlen
    | cons opt opts =>
      have hlen2 : opts.length = js.length := by simpa using hlen
      simp only [callEach, getDequeueFunc_of_buffer queue b hb opt w j js hw]
      rw [ih opts { w with jobs := js } rfl hlen2]
      simp

/-- C7 (amended): for a queue with the bulk capability: a call with a non-empty
buffer returns the first buffered job and leaves the outside world alone (no
`BulkDequeue`); a call with an empty buffer makes one `BulkDequeue` call with
`count = 1000` and a copy of the options whose `InvisibleSec` is the `int64`
product with 1000, exactly `1000 × InvisibleSec` when that fits in `int64`, the
caller's options staying as they were; when that call returns an error, the
error is returned with no job; when it returns `j₁ … jₙ` with `n ≥ 1` and no
error, this call and the next `n − 1` return `j₁, …, jₙ` in order, the outside
world having seen that single `BulkDequeue` and the buffer ending empty. -/
theorem getDequeueFunc_bulk {σ : Type} (queue : Queue σ) (b : bulkDequeuer σ)
    (hb : queue.bulk = some b) (opt : DequeueOptions) (w : World σ) :
    (∀ job rest, w.jobs = job :: rest →
      getDequeueFunc queue opt w
        = { result := .ret job, opt := opt, world := { w with jobs := rest } }) ∧
    (w.jobs = [] → ∀ e,
      (b.BulkDequeue 1000 { opt with InvisibleSec := wrap64 (opt.InvisibleSec * 1000) } w.ext).1.2
        = some e →
      getDequeueFunc queue opt w
        = { result := .fail e, opt := opt,
            world := { w with
              jobs := (b.BulkDequeue 1000
                { opt with InvisibleSec := wrap64 (opt.InvisibleSec * 1000) } w.ext).1.1
              ext := (b.BulkDequeue 1000
                { opt with InvisibleSec := wrap64 (opt.InvisibleSec * 1000) } w.ext).2 } }) ∧
    (w.jobs = [] → ∀ j js,
      (b.BulkDequeue 1000 { opt with InvisibleSec := wrap64 (opt.InvisibleSec * 1000) } w.ext).1
        = (j :: js, none) →
      ∀ opts : List DequeueOptions, opts.length = js.length →
        callEach (getDequeueFunc queue) (opt :: opts) w
          = ((j :: js).map .ret,
              { w with
                jobs := []
                ext := (b.BulkDequeue 1000
                  { opt with InvisibleSec := wrap64 (opt.InvisibleSec * 1000) } w.ext).2 })) ∧
    (minInt64 ≤ opt.InvisibleSec * 1000 → opt.InvisibleSec * 1000 ≤ maxInt64 →
      ({ opt with InvisibleSec := wrap64 (opt.InvisibleSec * 1000) } : DequeueOptions)
        = { opt with InvisibleSec := opt.InvisibleSec * 1000 }) := by
  refine ⟨fun job rest hw => getDequeueFunc_of_buffer queue b hb opt w job rest hw, ?_, ?_, ?_⟩
  · intro hw e he
    rw [getDequeueFunc_of_bulk queue b hb]
    simp [hw, he]
  · intro hw j js hr opts hlen
    have hfirst : getDequeueFunc queue opt w
        = { result := .ret j, opt := opt,
            world := { w with
              jobs := js
              ext := (b.BulkDequeue 1000
                { opt with InvisibleSec := wrap64 (opt.InvisibleSec * 1000) } w.ext).2 } } := by
      rw [getDequeueFunc_of_bulk queue b hb]
      simp [hw, hr, serveFirst]
    simp only [callEach, hfirst, List.map_cons]
    rw [callEach_of_buffer queue b hb js opts _ rfl hlen]
  · intro hlo hhi
    rw [wrap64_of_fits hlo hhi]

/-- Witness for C7: the recording queue hands out two jobs; two calls return
them in order after a single recorded `BulkDequeue` with a window of 62000. -/
theorem getDequeueFunc_bulk_witness :
    callEach (getDequeueFunc (bulkRecorder ([job0, job1], none))) [optsFor 62, optsFor 62]
        (emptyWorld [])
      = ([.ret job0, .ret job1], emptyWorld [Call.BulkDequeue 1000 (optsFor 62000)]) :=
  (getDequeueFunc_bulk (bulkRecorder ([job0, job1], none))
    { BulkDequeue := fun count opt s =>
        (([job0, job1], none), s ++ [Call.BulkDequeue count opt])
      BulkAck := fun jobs opt s => (none, s ++ [Call.BulkAck jobs opt]) }
    rfl (optsFor 62) (emptyWorld [])).2.2.1 rfl job0 [job1] rfl [optsFor 62] rfl

/-- Counterexample to C7 as stated: with `InvisibleSec = 9223372036854776` the
product with 1000 overflows `int64`, and `BulkDequeue` receives a negative
window instead of the thousandfold one. -/
theorem getDequeueFunc_bulk_overflow :
    (getDequeueFunc (bulkRecorder ([job0], none)) (optsFor 9223372036854776)
        (emptyWorld [])).world.ext
      = [Call.BulkDequeue 1000 (optsFor (-9223372036854775616))] ∧
    (getDequeueFunc (bulkRecorder ([job0], none)) (optsFor 9223372036854776)
        (emptyWorld [])).world.ext
      ≠ [Call.BulkDequeue 1000 (optsFor (9223372036854776 * 1000))] := by
  decide

/-- C10 (evaluation at the failing input): when the buffer is empty and
`BulkDequeue` answers an empty list with a nil error, the adapter indexes the
empty buffer and panics instead of returning a job or an error. -/
theorem getDequeueFunc_empty_batch_panics :
    (getDequeueFunc (bulkRecorder ([], none)) (optsFor 62) (emptyWorld [])).result
      = DequeueResult.panicked := by
  decide

/-! ## One pass through the default branch -/

theorem catchPanic_of_ret {σ : Type} (f : HandleFunc σ) (job : Job) (opt : DequeueOptions)
    (w : World σ) (r : Option Error) (hres : (f job opt w).result = .ret r) :
    catchPanic f job opt w = f job opt w := by
  simp only [catchPanic, hres]

theorem catchPanic_of_panic {σ : Type} (f : HandleFunc σ) (job : Job) (opt : DequeueOptions)
    (w : World σ) (v : String) (hres : (f job opt w).result = .panicked (some v)) :
    catchPanic f job opt w = { f job opt w with result := .ret (some (errorsNew v)) } := by
  simp only [catchPanic, hres]

theorem catchPanic_of_nil_panic {σ : Type} (f : HandleFunc σ) (job : Job)
    (opt : DequeueOptions) (w : World σ) (hres : (f job opt w).result = .panicked none) :
    catchPanic f job opt w = { f job opt w with result := .ret none } := by
  simp only [catchPanic, hres]

theorem handle_of_error {σ : Type} (now : Int) (w : Worker σ) (h : handler σ) (j : Job)
    (opt : DequeueOptions) (wld : World σ) (e : Error)
    (hc : ((userChain h j opt wld).result = .ret (some e) ∧ e ≠ Error.ErrUnrecoverable) ∨
      (∃ v, (userChain h j opt wld).result = .panicked (some v) ∧ e = errorsNew v)) :
    w.handle now h j opt wld =
      { result := .ret (some e)
        job := retryUpdate now e (userChain h j opt wld).job (userChain h j opt wld).opt
        opt := (userChain h j opt wld).opt
        world :=
          { (userChain h j opt wld).world with
            ext := (w.queue.Enqueue
              (retryUpdate now e (userChain h j opt wld).job (userChain h j opt wld).opt)
              { Namespace := (userChain h j opt wld).opt.Namespace
                QueueID := (userChain h j opt wld).opt.QueueID }
              (userChain h j opt wld).world.ext).2 } } := by
  rcases hc with ⟨hres, hne⟩ | ⟨v, hres, hv⟩
  · have hcp := catchPanic_of_ret (userChain h) j opt wld _ hres
    have hres2 : (catchPanic (userChain h) j opt wld).result = .ret (some e) := by
      rw [hcp]; exact hres
    rw [Worker.handle, retry_of_error now w.queue _ j opt wld e hres2 hne, hcp]
  · have hcp := catchPanic_of_panic (userChain h) j opt wld v hres
    have hres2 : (catchPanic (userChain h) j opt wld).result = .ret (some e) := by
      rw [hcp, hv]
    have hne : e ≠ Error.ErrUnrecoverable := by
      rw [hv]; simp [errorsNew]
    rw [Worker.handle, retry_of_error now w.queue _ j opt wld e hres2 hne, hcp]

theorem handle_of_ack {σ : Type} (now : Int) (w : Worker σ) (h : handler σ) (j : Job)
    (opt : DequeueOptions) (wld : World σ)
    (hc : (userChain h j opt wld).result = .ret none ∨
      (userChain h j opt wld).result = .ret (some Error.ErrUnrecoverable) ∨
      (userChain h j opt wld).result = .panicked none) :
    w.handle now h j opt wld = { userChain h j opt wld with result := .ret none } := by
  rcases hc with hres | hres | hres
  · have hcp := catchPanic_of_ret (userChain h) j opt wld _ hres
    have hres2 : (catchPanic (userChain h) j opt wld).result = .ret none := by
      rw [hcp]; exact hres
    rw [Worker.handle, retry_of_nil now w.queue _ j opt wld hres2, hcp]
    cases hu : userChain h j opt wld
    rw [hu] at hres
    simp only at hres
    simp [hres]
  · have hcp := catchPanic_of_ret (userChain h) j opt wld _ hres
    have hres2 : (catchPanic (userChain h) j opt wld).result
        = .ret (some Error.ErrUnrecoverable) := by
      rw [hcp]; exact hres
    rw [Worker.handle, retry_of_unrecoverable now w.queue _ j opt wld hres2, hcp]
  · have hcp := catchPanic_of_nil_panic (userChain h) j opt wld hres
    have hres2 : (catchPanic (userChain h) j opt wld).result = .ret none := by
      rw [hcp]
    rw [Worker.handle, retry_of_nil now w.queue _ j opt wld hres2, hcp]

/-- One pass through the default branch, with `d` the outcome of the dequeue
call. If `d` is an error the pass ends in the world dequeue left: the handler
chain is not run and the ack batch is untouched. If `d` is a job `j` and the
user chain (user middleware around the user handler) returns nil or
`ErrUnrecoverable`, or panics with a nil value, the job is appended to the ack
batch (followed by the flush of a batch that has reached 1000 jobs) and the
outside world is the one the chain left: no `Enqueue`. If the chain returns
another error `e`, or panics with a non-nil value whose error is `e`, the world
is the one the chain left after one `Enqueue` of the job updated by `retry`,
with the ack batch as it was. -/
theorem iteration_ack {σ : Type} (ErrEmptyQueue : Error) (pause : Int → World σ → World σ)
    (w : Worker σ) (h : handler σ) (at_ now : Int) (wld : World σ) (d : DequeueOut σ)
    (hd : w.dequeue ErrEmptyQueue pause h (w.dequeueOptions h at_) wld = d) :
    (∀ e, d.result = .fail e →
      w.iteration ErrEmptyQueue pause h at_ now wld = some d.world) ∧
    (∀ j, d.result = .ret j →
      ((userChain h j d.opt d.world).result = .ret none ∨
        (userChain h j d.opt d.world).result = .ret (some Error.ErrUnrecoverable) ∨
        (userChain h j d.opt d.world).result = .panicked none →
        w.iteration ErrEmptyQueue pause h at_ now wld =
          some (if ((userChain h j d.opt d.world).world.ackJobs
                ++ [(userChain h j d.opt d.world).job]).length ≥ 1000 then
              (w.flush h
                { (userChain h j d.opt d.world).world with
                  ackJobs := (userChain h j d.opt d.world).world.ackJobs
                    ++ [(userChain h j d.opt d.world).job] }).2
            else
              { (userChain h j d.opt d.world).world with
                ackJobs := (userChain h j d.opt d.world).world.ackJobs
                  ++ [(userChain h j d.opt d.world).job] })) ∧
      (∀ e,
        ((userChain h j d.opt d.world).result = .ret (some e) ∧ e ≠ Error.ErrUnrecoverable) ∨
          (∃ v, (userChain h j d.opt d.world).result = .panicked (some v) ∧
            e = errorsNew v) →
        w.iteration ErrEmptyQueue pause h at_ now wld =
          some
            { (userChain h j d.opt d.world).world with
              ext := (w.queue.Enqueue
                (retryUpdate now e (userChain h j d.opt d.world).job
                  (userChain h j d.opt d.world).opt)
                { Namespace := (userChain h j d.opt d.world).opt.Namespace
                  QueueID := (userChain h j d.opt d.world).opt.QueueID }
                (userChain h j d.opt d.world).world.ext).2
              ackJobs := (userChain h j d.opt d.world).world.ackJobs })) := by
  subst hd
  refine ⟨?_, ?_⟩
  · intro e he
    simp only [Worker.iteration, Worker.defaultBranch, he]
  · intro j hj
    refine ⟨?_, ?_⟩
    · intro hc
      simp only [Worker.iteration, Worker.defaultBranch, hj, handle_of_ack now w h j _ _ hc]
      split <;> rfl
    · intro e hc
      simp only [Worker.iteration, Worker.defaultBranch, hj, handle_of_error now w h j _ _ e hc]

/-- Example of a failing handler: the recording queue hands out `job0`, the
handler fails with "boom"; the pass records the dequeue and exactly one
`Enqueue` of the updated job, and the ack batch stays empty. -/
theorem iteration_ack_requeues :
    (worker0 servingRecorder).iteration (.other "work: empty queue") (fun _ wld => wld)
        failingHandler 7 100 (emptyWorld [])
      = some
          { ext := [Call.Dequeue { Namespace := "ns1", QueueID := "q1", At := 7, InvisibleSec := 62 },
              Call.Enqueue (job0Failed "boom" 100 62) { Namespace := "ns1", QueueID := "q1" }]
            jobs := []
            ackJobs := [] } := by
  have h := ((iteration_ack (.other "work: empty queue") (fun _ wld => wld)
    (worker0 servingRecorder) failingHandler 7 100 (emptyWorld [])
    ((worker0 servingRecorder).dequeue (.other "work: empty queue") (fun _ wld => wld)
      failingHandler ((worker0 servingRecorder).dequeueOptions failingHandler 7) (emptyWorld []))
    rfl).2 job0 (by decide)).2 (.other "boom") (Or.inl ⟨by decide, by decide⟩)
  rw [h]
  decide

/-- C3 (evaluation at the failing input): the recording queue hands out `job0`
and the handler panics with a nil value. `catchPanic` recovers the panic with a
nil error, so the pass appends the job to the ack batch and records no
`Enqueue`: the job is acked instead of being re-enqueued by `retry`. -/
theorem iteration_nil_panic_acks :
    (worker0 servingRecorder).iteration (.other "work: empty queue") (fun _ wld => wld)
        nilPanicHandler 7 100 (emptyWorld [])
      = some
          { ext := [Call.Dequeue { Namespace := "ns1", QueueID := "q1", At := 7, InvisibleSec := 62 }]
            jobs := []
            ackJobs := [job0] } := by
  decide

/-! ## Linear backoff over consecutive retries -/

theorem retryTimes_Retries {σ : Type} (nows : Nat → Int) (queue : Queue σ) (f : HandleFunc σ)
    (opt : DequeueOptions) (job : Job) (w : World σ) (hjob : job.Retries = 0)
    (hf : ∀ (j : Job) (wld : World σ), ∃ e, e ≠ Error.ErrUnrecoverable ∧
      (f j opt wld).result = .ret (some e) ∧ (f j opt wld).job.Retries = j.Retries ∧
      (f j opt wld).opt.InvisibleSec = opt.InvisibleSec) :
    ∀ k : Nat, (k : Int) ≤ maxInt64 →
      (retryTimes nows queue f opt k job w).job.Retries = k := by
  intro k
  induction k with
  | zero => intro _; simp [retryTimes, hjob]
  | succ n ih =>
    intro hn
    have hn1 : (n : Int) ≤ maxInt64 := by push_cast at hn; omega
    have ih1 := ih hn1
    obtain ⟨e, hne, hres, hR, _⟩ :=
      hf (retryTimes nows queue f opt n job w).job (retryTimes nows queue f opt n job w).world
    simp only [retryTimes]
    rw [retry_of_error _ queue f _ opt _ e hres hne]
    simp only [retryUpdate, hR, ih1]
    push_cast
    apply wrap64_of_fits
    · simp only [minInt64]; omega
    · push_cast at hn; exact hn

/-- C4 (amended): let a job created with `Retries = 0` pass `k ≥ 1` times in a
row through `retry`, the inner handler each time returning a non-nil error
other than `ErrUnrecoverable` and leaving the job's `Retries` and the options'
`InvisibleSec ≥ 0` as they are. If `k` and `k × InvisibleSec × 10⁹` fit in
`int64`, then after the `k`-th pass `Retries = k`, `LastError` is the message of
the `k`-th error (non-empty when that message is), and `EnqueuedAt` is exactly,
hence at least, `k × InvisibleSec` seconds after the instant read during the
`k`-th pass. -/
theorem retry_backoff {σ : Type} (nows : Nat → Int) (queue : Queue σ) (f : HandleFunc σ)
    (opt : DequeueOptions) (job : Job) (w : World σ) (k : Nat)
    (hk : 1 ≤ k) (hI : 0 ≤ opt.InvisibleSec) (hjob : job.Retries = 0)
    (hf : ∀ (j : Job) (wld : World σ), ∃ e, e ≠ Error.ErrUnrecoverable ∧
      (f j opt wld).result = .ret (some e) ∧ (f j opt wld).job.Retries = j.Retries ∧
      (f j opt wld).opt.InvisibleSec = opt.InvisibleSec)
    (hkfit : (k : Int) ≤ maxInt64)
    (hfit : (k : Int) * opt.InvisibleSec * Second ≤ maxInt64) :
    (retryTimes nows queue f opt k job w).job.Retries = k ∧
    (retryTimes nows queue f opt k job w).job.EnqueuedAt
      = nows (k - 1) + (k : Int) * opt.InvisibleSec * Second ∧
    nows (k - 1) + (k : Int) * opt.InvisibleSec * Second
      ≤ (retryTimes nows queue f opt k job w).job.EnqueuedAt ∧
    (∃ e,
      (f (retryTimes nows queue f opt (k - 1) job w).job opt
        (retryTimes nows queue f opt (k - 1) job w).world).result = .ret (some e) ∧
      (retryTimes nows queue f opt k job w).job.LastError = e.Error ∧
      (e.Error ≠ "" → (retryTimes nows queue f opt k job w).job.LastError ≠ "")) := by
  obtain ⟨n, rfl⟩ : ∃ n, k = n + 1 := ⟨k - 1, by omega⟩
  have hR := retryTimes_Retries nows queue f opt job w hjob hf
  have hRk := hR (n + 1) hkfit
  have hRn := hR n (by push_cast at hkfit; omega)
  obtain ⟨e, hne, hres, hRf, hIf⟩ :=
    hf (retryTimes nows queue f opt n job w).job (retryTimes nows queue f opt n job w).world
  have hnonneg : 0 ≤ ((n : Int) + 1) * opt.InvisibleSec * Second := by
    have : (0 : Int) ≤ Second := by decide
    positivity
  have hEq : (retryTimes nows queue f opt (n + 1) job w).job.EnqueuedAt
      = nows n + ((n : Int) + 1) * opt.InvisibleSec * Second := by
    simp only [retryTimes]
    rw [retry_of_error _ queue f _ opt _ e hres hne]
    simp only [retryUpdate, hRf, hIf, hRn, timeAdd]
    have e1 : wrap64 ((n : Int) + 1) = (n : Int) + 1 :=
      wrap64_of_fits (by simp only [minInt64]; omega) (by push_cast at hkfit; exact hkfit)
    rw [e1, backoff_fits (by simp only [minInt64] at *; omega) (by push_cast at hfit; exact hfit)]
  have hL : (retryTimes nows queue f opt (n + 1) job w).job.LastError = e.Error := by
    simp only [retryTimes]
    rw [retry_of_error _ queue f _ opt _ e hres hne]
    simp [retryUpdate]
  refine ⟨hRk, ?_, ?_, ⟨e, ?_, hL, ?_⟩⟩
  · rw [hEq]; simp
  · rw [hEq]; simp
  · simpa using hres
  · intro hmsg; rw [hL]; exact hmsg

/-- Witness for C4: three failures under a 62 second window. -/
theorem retry_backoff_witness :
    (retryTimes (fun i => 100 * i) plainRecorder (failWith (List Call) (.other "boom"))
        (optsFor 62) 3 job0 (emptyWorld [])).job.Retries = 3 ∧
    (retryTimes (fun i => 100 * i) plainRecorder (failWith (List Call) (.other "boom"))
        (optsFor 62) 3 job0 (emptyWorld [])).job.EnqueuedAt = 200 + 3 * 62 * Second := by
  have h := retry_backoff (fun i => 100 * i) plainRecorder
    (failWith (List Call) (.other "boom")) (optsFor 62) job0 (emptyWorld []) 3
    (by decide) (by decide) rfl
    (fun j wld => ⟨.other "boom", by decide, rfl, rfl, rfl⟩) (by decide) (by decide)
  exact ⟨h.1, h.2.1⟩

/-- Counterexample to C4 as stated: with `InvisibleSec = 4611686019` the second
retry overflows `int64`; after it `Retries = 2` but the job is scheduled before
the instant `now = 0` of the second pass, not `2 × InvisibleSec` seconds after
it. -/
theorem retry_backoff_overflow :
    (0 : Int) ≤ 4611686019 ∧
    (retryTimes (fun _ => 0) plainRecorder (failWith (List Call) (.other "boom"))
        (optsFor 4611686019) 2 job0 (emptyWorld [])).job.Retries = 2 ∧
    (retryTimes (fun _ => 0) plainRecorder (failWith (List Call) (.other "boom"))
        (optsFor 4611686019) 2 job0 (emptyWorld [])).job.EnqueuedAt = -9223372035709551616 ∧
    ¬ (0 + 2 * 4611686019 * Second
      ≤ (retryTimes (fun _ => 0) plainRecorder (failWith (List Call) (.other "boom"))
        (optsFor 4611686019) 2 job0 (emptyWorld [])).job.EnqueuedAt) := by
  decide

end Work
